import Mathlib

/-!
Verification development for the Word-Guru repository.

The Python sources (`game.py`, `daily.py`, `persistence.py`) are shallowly
embedded below: pure functions become Lean functions, the mutable
`WordGuruGame` object becomes explicit state passing on a `GameState`
record, and fallible code returns `Except`.  Strings are modelled over the
ASCII fragment the game works with (the spec fixes letter comparison to
ASCII A-Z); Python `dict` counters become functions `Char → Nat`.
-/

/-! ## String helpers (Python `str.upper`, `str.strip`, `str.isalpha`) -/

/-- Python `str.upper()` on the ASCII fragment: uppercase every letter. -/
def pyUpper (s : List Char) : List Char := s.map Char.toUpper

/-- Python `str.strip()`: drop whitespace from both ends. -/
def pyStrip (s : List Char) : List Char :=
  (((s.dropWhile Char.isWhitespace).reverse).dropWhile Char.isWhitespace).reverse

/-- Python `str.isalpha()` on the ASCII fragment: non-empty and every
character alphabetic (Python returns `False` on the empty string). -/
def pyIsAlpha (s : List Char) : Bool := !s.isEmpty && s.all Char.isAlpha

/-- Normalisation applied by `check_guess`: `guess.upper().strip()`. -/
def normalizeGuess (raw : List Char) : List Char := pyStrip (pyUpper raw)

/-! ## The scorer (`WordGuruGame.check_guess`, the letter-status passes) -/

/-- Per-letter status; `pending` is the placeholder the first pass writes
before the second pass resolves it to `present`/`absent`. -/
inductive LStatus where
  | correct
  | present
  | absent
  | pending
deriving DecidableEq, Repr

/-- `target_letter_counts`: frequency of each letter in the target word
(`dict.get(letter, 0)` semantics). -/
def targetCounts (target : List Char) (c : Char) : Nat := target.count c

/-- First pass over the guess: positions matching the target are `correct`,
the rest are `pending`. -/
def pass1 (target guess : List Char) : List LStatus :=
  (guess.zip target).map (fun p => if p.1 = p.2 then LStatus.correct else LStatus.pending)

/-- `used_target_letters` after the first pass: for each letter, how many
positions were marked `correct` with that letter. -/
def usedAfterPass1 (target guess : List Char) (c : Char) : Nat :=
  ((guess.zip target).filter (fun p => p.1 = p.2 && p.1 = c)).length

/-- `used_target_letters[letter] = used_target_letters.get(letter, 0) + 1`. -/
def bump (f : Char → Nat) (c : Char) : Char → Nat :=
  fun x => if x = c then f x + 1 else f x

/-- Second pass: each `pending` position becomes `present` if the letter
still has available count in the target (and consumes one), else `absent`;
already-resolved positions are kept. -/
def pass2 (tcnt : Char → Nat) : List (Char × LStatus) → (Char → Nat) → List LStatus
  | [], _ => []
  | (c, LStatus.pending) :: rest, used =>
      if tcnt c - used c > 0 then
        LStatus.present :: pass2 tcnt rest (bump used c)
      else
        LStatus.absent :: pass2 tcnt rest used
  | (_, LStatus.correct) :: rest, used => LStatus.correct :: pass2 tcnt rest used
  | (_, LStatus.present) :: rest, used => LStatus.present :: pass2 tcnt rest used
  | (_, LStatus.absent) :: rest, used => LStatus.absent :: pass2 tcnt rest used

/-- The letter-status computation of `check_guess` (lines 112-141 of
`game.py`): first pass marks exact matches, second pass resolves the rest
multiset-aware, left to right. -/
def scoreGuess (target guess : List Char) : List LStatus :=
  pass2 (targetCounts target) (guess.zip (pass1 target guess)) (usedAfterPass1 target guess)

/-- `feedback_summary` entry for one letter, as resolved by the two passes. -/
def feedbackMark (c : Char) (s : LStatus) : List Char :=
  match s with
  | LStatus.correct => [c, '✓']
  | LStatus.present => [c, '~']
  | LStatus.absent => [c, '✗']
  | LStatus.pending => [c, '?']

/-- `feedback_summary` as returned by `check_guess`. -/
def feedbackOf (guess : List Char) (statuses : List LStatus) : List (List Char) :=
  (guess.zip statuses).map (fun p => feedbackMark p.1 p.2)

/-! ## The game state machine (`WordGuruGame`) -/

/-- Mutable fields of `WordGuruGame` that `check_guess` reads or writes
(`current_word`, `max_attempts`, `attempts`, `game_over`, `won`); the
presentation/persistence configuration fields never affect these. -/
structure GameState where
  current_word : Option (List Char)
  max_attempts : Nat
  attempts : List (List Char)
  game_over : Bool
  won : Bool
deriving DecidableEq, Repr

/-- The exceptions `check_guess` can raise: `RuntimeError` when the game
was not started, `ValueError` on a wrong-length or non-alphabetic guess. -/
inductive GameError where
  | notStarted
  | lengthMismatch (expected : Nat)
  | invalidChars
deriving DecidableEq, Repr

/-- `WordGuruGame.check_guess` (game.py lines 95-156).  The result pairs
the state of the object after the call with either the raised error or the
returned `(letter_statuses, feedback_summary)`.  Each `raise` happens
before any mutation, so the state at an error is the entry state. -/
def check_guess (g : GameState) (raw : List Char) :
    GameState × Except GameError (List LStatus × List (List Char)) :=
  match g.current_word with
  | none => (g, Except.error GameError.notStarted)
  | some w =>
    let guess := normalizeGuess raw
    if guess.length ≠ w.length then
      (g, Except.error (GameError.lengthMismatch w.length))
    else if !pyIsAlpha guess then
      (g, Except.error GameError.invalidChars)
    else
      let attempts' := g.attempts ++ [guess]
      let statuses := scoreGuess w guess
      let feedback := feedbackOf guess statuses
      let won' := if guess = w then true else g.won
      let gameOver1 := if guess = w then true else g.game_over
      let gameOver' := if attempts'.length ≥ g.max_attempts then true else gameOver1
      ({ g with attempts := attempts', won := won', game_over := gameOver' },
        Except.ok (statuses, feedback))

/-- The session state right after `start_game` selected `w` as the target:
empty attempts, not over, not won. -/
def startState (w : List Char) (n : Nat) : GameState :=
  { current_word := some w, max_attempts := n, attempts := [], game_over := false,
    won := false }

/-- Submitting a sequence of guesses one after the other, propagating the
first raised error. -/
def applyGuesses (s : GameState) : List (List Char) → Except GameError GameState
  | [] => Except.ok s
  | g :: gs =>
    match check_guess s g with
    | (s', Except.ok _) => applyGuesses s' gs
    | (_, Except.error e) => Except.error e

example : scoreGuess "APPLE".toList "ALLOW".toList =
    [LStatus.correct, LStatus.present, LStatus.absent, LStatus.absent, LStatus.absent] := by
  decide

example : scoreGuess "APPLE".toList "PLANE".toList =
    [LStatus.present, LStatus.present, LStatus.present, LStatus.absent, LStatus.correct] := by
  decide

/-! ## SHA-256 (`hashlib.sha256`, modelled from FIPS 180-4, byte-level,
words as `Nat` reduced mod `2^32`) -/

/-- `2^32`, the word modulus. -/
def M32 : Nat := 4294967296

/-- Addition of 32-bit words. -/
def add32 (a b : Nat) : Nat := (a + b) % M32

/-- Right rotation of a 32-bit word by `n` places. -/
def rotr32 (n x : Nat) : Nat := ((x >>> n) ||| (x <<< (32 - n))) % M32

/-- Logical right shift. -/
def shr32 (n x : Nat) : Nat := x >>> n

/-- Bitwise complement of a 32-bit word. -/
def not32 (x : Nat) : Nat := x ^^^ 4294967295

/-- SHA-256 `Ch` function. -/
def sha256Ch (e f g : Nat) : Nat := (e &&& f) ^^^ (not32 e &&& g)

/-- SHA-256 `Maj` function. -/
def sha256Maj (a b c : Nat) : Nat :=
  Nat.xor (Nat.xor (Nat.land a b) (Nat.land a c)) (Nat.land b c)

/-- SHA-256 `Σ0`. -/
def bigSigma0 (a : Nat) : Nat := rotr32 2 a ^^^ rotr32 13 a ^^^ rotr32 22 a

/-- SHA-256 `Σ1`. -/
def bigSigma1 (e : Nat) : Nat := rotr32 6 e ^^^ rotr32 11 e ^^^ rotr32 25 e

/-- SHA-256 `σ0`. -/
def smallSigma0 (x : Nat) : Nat := rotr32 7 x ^^^ rotr32 18 x ^^^ shr32 3 x

/-- SHA-256 `σ1`. -/
def smallSigma1 (x : Nat) : Nat := rotr32 17 x ^^^ rotr32 19 x ^^^ shr32 10 x

/-- The 64 SHA-256 round constants, written in decimal. -/
def sha256K : List Nat :=
  [1116352408, 1899447441, 3049323471, 3921009573, 961987163,
   1508970993, 2453635748, 2870763221, 3624381080, 310598401,
   607225278, 1426881987, 1925078388, 2162078206, 2614888103,
   3248222580, 3835390401, 4022224774, 264347078, 604807628,
   770255983, 1249150122, 1555081692, 1996064986, 2554220882,
   2821834349, 2952996808, 3210313671, 3336571891, 3584528711,
   113926993, 338241895, 666307205, 773529912, 1294757372,
   1396182291, 1695183700, 1986661051, 2177026350, 2456956037,
   2730485921, 2820302411, 3259730800, 3345764771, 3516065817,
   3600352804, 4094571909, 275423344, 430227734, 506948616,
   659060556, 883997877, 958139571, 1322822218, 1537002063,
   1747873779, 1955562222, 2024104815, 2227730452, 2361852424,
   2428436474, 2756734187, 3204031479, 3329325298]

/-- The initial SHA-256 hash state, written in decimal. -/
def sha256H0 : List Nat :=
  [1779033703, 3144134277, 1013904242, 2773480762,
   1359893119, 2600822924, 528734635, 1541459225]

/-- Big-endian byte representation of `v` on `n` bytes. -/
def bytesBE (n v : Nat) : List Nat :=
  (List.range n).map (fun i => (v >>> (8 * (n - 1 - i))) % 256)

/-- SHA-256 padding: append `0x80`, zeros, and the 64-bit big-endian bit
length so the total is a multiple of 64 bytes. -/
def padMessage (msg : List Nat) : List Nat :=
  let padZeros := (64 - (msg.length + 9) % 64) % 64
  msg ++ [0x80] ++ List.replicate padZeros 0 ++ bytesBE 8 (msg.length * 8)

/-- The 16 initial 32-bit words of a 64-byte block, big-endian. -/
def wordsOfBlock (block : List Nat) : List Nat :=
  (List.range 16).map (fun i =>
    block.getD (4 * i) 0 * 16777216 + block.getD (4 * i + 1) 0 * 65536 +
    block.getD (4 * i + 2) 0 * 256 + block.getD (4 * i + 3) 0)

/-- Message-schedule expansion from 16 to 64 words. -/
def extendSchedule (w : List Nat) : List Nat :=
  (List.range 48).foldl
    (fun acc t =>
      acc ++ [add32 (add32 (smallSigma1 (acc.getD (t + 14) 0)) (acc.getD (t + 9) 0))
                (add32 (smallSigma0 (acc.getD (t + 1) 0)) (acc.getD t 0))])
    w

/-- One SHA-256 compression step over a 64-byte block. -/
def sha256Compress (hs : List Nat) (block : List Nat) : List Nat :=
  let w := extendSchedule (wordsOfBlock block)
  let st0 : Nat × Nat × Nat × Nat × Nat × Nat × Nat × Nat :=
    (hs.getD 0 0, hs.getD 1 0, hs.getD 2 0, hs.getD 3 0,
     hs.getD 4 0, hs.getD 5 0, hs.getD 6 0, hs.getD 7 0)
  let stf := (List.range 64).foldl
    (fun st t =>
      match st with
      | (a, b, c, d, e, f, g, h) =>
        let t1 := add32 h (add32 (bigSigma1 e)
          (add32 (sha256Ch e f g) (add32 (sha256K.getD t 0) (w.getD t 0))))
        let t2 := add32 (bigSigma0 a) (sha256Maj a b c)
        (add32 t1 t2, a, b, c, add32 d t1, e, f, g))
    st0
  match stf with
  | (a, b, c, d, e, f, g, h) =>
    [add32 (hs.getD 0 0) a, add32 (hs.getD 1 0) b, add32 (hs.getD 2 0) c,
     add32 (hs.getD 3 0) d, add32 (hs.getD 4 0) e, add32 (hs.getD 5 0) f,
     add32 (hs.getD 6 0) g, add32 (hs.getD 7 0) h]

/-- SHA-256 digest of a byte sequence, as 32 bytes. -/
def sha256 (msg : List Nat) : List Nat :=
  let padded := padMessage msg
  let final := (List.range (padded.length / 64)).foldl
    (fun acc i => sha256Compress acc ((padded.drop (64 * i)).take 64)) sha256H0
  final.foldr (fun w acc => bytesBE 4 w ++ acc) []

/-- The lowercase hexadecimal digit character for a value below 16. -/
def hexDigitChar (n : Nat) : Char :=
  if n < 10 then Char.ofNat (48 + n) else Char.ofNat (87 + n)

/-- `hexdigest()`: the digest bytes as lowercase hexadecimal characters. -/
def hexdigest (bytes : List Nat) : List Char :=
  bytes.foldr (fun b acc => hexDigitChar (b / 16) :: hexDigitChar (b % 16) :: acc) []

/-- Value of one hexadecimal character (digits and lowercase letters, the
alphabet `hexdigest` produces). -/
def hexVal (c : Char) : Nat :=
  if c.toNat ≤ 57 then c.toNat - 48 else c.toNat - 87

/-- Python `int(s, 16)` on a lowercase hexadecimal string. -/
def hexToNat (s : List Char) : Nat := s.foldl (fun acc c => acc * 16 + hexVal c) 0

/-! ## Daily word selection (`daily.py`) -/

/-- A calendar date as `datetime.date` carries it. -/
structure PyDate where
  year : Nat
  month : Nat
  day : Nat
deriving DecidableEq, Repr

/-- A number printed in decimal, left-padded with zeros to `width`. -/
def padNum (width n : Nat) : List Char :=
  let s := (toString n).toList
  List.replicate (width - s.length) '0' ++ s

/-- Python `str(date)`: the ISO format `YYYY-MM-DD`, zero padded. -/
def dateStr (d : PyDate) : List Char :=
  padNum 4 d.year ++ '-' :: padNum 2 d.month ++ '-' :: padNum 2 d.day

/-- `str.encode()` of an ASCII string: UTF-8 bytes are the code points
(date strings are digits and hyphens, all ASCII). -/
def strBytes (s : List Char) : List Nat := s.map Char.toNat

/-- Uppercase then strip, on `String` (Python `w.upper().strip()`). -/
def upperStrip (w : String) : String :=
  ((pyStrip (pyUpper w.toList)).asString)

/-- `select_daily_word` (daily.py lines 19-61): raise on an empty list,
otherwise hash the ISO date string with SHA-256, read the first 8 hex
characters of the digest as an integer seed, index the list by
`seed % len(words)`, and return that word uppercased and stripped.  The
`date` argument is explicit here; the Python default (today, UTC) is an
I/O-supplied value of the same type. -/
def select_daily_word (words : List String) (date : PyDate) : Except String String :=
  if h : words.length = 0 then
    Except.error "Words list cannot be empty"
  else
    let date_string := dateStr date
    let hash_hex := hexdigest (sha256 (strBytes date_string))
    let seed := hexToNat (hash_hex.take 8)
    let word_index := seed % words.length
    Except.ok (upperStrip (words.get ⟨word_index, Nat.mod_lt _ (Nat.pos_of_ne_zero h)⟩))

/-- The seed as the spec words it: the unsigned integer denoted by the
first 8 hexadecimal characters of the SHA-256 digest of the date string
formatted `YYYY-MM-DD`. -/
def dailySeedSpec (d : PyDate) : Nat :=
  hexToNat ((hexdigest (sha256 (strBytes (dateStr d)))).take 8)

/-! ## Persistence (`persistence.py`) -/

/-- JSON values (`json` module data model; integers suffice for the
numbers this store holds, and `bool` is kept separate from `num` exactly
as Python keeps `True`/`False` distinct objects from other ints). -/
inductive Json where
  | null
  | b (x : Bool)
  | num (n : Int)
  | str (s : String)
  | arr (xs : List Json)
  | obj (kvs : List (String × Json))

/-- What a score file can hold once read and stripped: nothing (content
strips to the empty string), text that is not valid JSON, or the
serialization of a JSON value (`json.dumps`/`json.loads` are mutually
inverse on values, so text is modelled by its parse). -/
inductive FileText where
  | blank
  | invalid
  | val (j : Json)

/-- The two ways `load_scores` fails (both re-raised as `RuntimeError`):
the content does not parse, or it parses to a non-list. -/
inductive LoadError where
  | decodeError
  | notAList
deriving DecidableEq, Repr

/-- `load_scores` (persistence.py lines 18-55).  The file system argument
is `none` when the path does not exist, else the file's content. -/
def load_scores (fs : Option FileText) : Except LoadError (List Json) :=
  match fs with
  | none => Except.ok []
  | some FileText.blank => Except.ok []
  | some FileText.invalid => Except.error LoadError.decodeError
  | some (FileText.val j) =>
    match j with
    | Json.arr xs => Except.ok xs
    | _ => Except.error LoadError.notAList

/-- Python `dict` lookup on an object's fields. -/
def getField (kvs : List (String × Json)) (k : String) : Option Json :=
  (kvs.find? (fun p => p.1 = k)).map (fun p => p.2)

/-- Whether a required field is among the object's keys. -/
def hasField (kvs : List (String × Json)) (k : String) : Bool :=
  (getField kvs k).isSome

/-- `isinstance(v, str)`. -/
def isPyStr : Json → Bool
  | Json.str _ => true
  | _ => false

/-- `isinstance(v, bool)`. -/
def isPyBool : Json → Bool
  | Json.b _ => true
  | _ => false

/-- `isinstance(v, int)`: Python's `bool` is a subclass of `int`, so
`True`/`False` satisfy this check too. -/
def isPyInt : Json → Bool
  | Json.num _ => true
  | Json.b _ => true
  | _ => false

/-- The integer value of a Python int, where `True == 1` and `False == 0`. -/
def pyIntVal : Json → Int
  | Json.num n => n
  | Json.b x => if x then 1 else 0
  | _ => 0

/-- The distinct `ValueError`s of `save_score`'s validation, plus the
wrapped `RuntimeError` when re-loading the existing store fails. -/
inductive SaveError where
  | notADict
  | missingFields
  | badPlayer
  | badWord
  | badAttempts
  | badWon
  | badDate
  | loadFailed (e : LoadError)
deriving DecidableEq, Repr

/-- `save_score` (persistence.py lines 58-117): validate the record's five
required fields and their types, load the existing scores, append the
record and rewrite the file.  Returns the new file content on success. -/
def save_score (fs : Option FileText) (score : Json) : Except SaveError (Option FileText) :=
  match score with
  | Json.obj kvs =>
    if !(hasField kvs "player" && hasField kvs "word" && hasField kvs "attempts" &&
         hasField kvs "won" && hasField kvs "date") then
      Except.error SaveError.missingFields
    else if !isPyStr ((getField kvs "player").getD Json.null) then
      Except.error SaveError.badPlayer
    else if !isPyStr ((getField kvs "word").getD Json.null) then
      Except.error SaveError.badWord
    else if !isPyInt ((getField kvs "attempts").getD Json.null) ||
            pyIntVal ((getField kvs "attempts").getD Json.null) < 0 then
      Except.error SaveError.badAttempts
    else if !isPyBool ((getField kvs "won").getD Json.null) then
      Except.error SaveError.badWon
    else if !isPyStr ((getField kvs "date").getD Json.null) then
      Except.error SaveError.badDate
    else
      match load_scores fs with
      | Except.error e => Except.error (SaveError.loadFailed e)
      | Except.ok scores => Except.ok (some (FileText.val (Json.arr (scores ++ [score]))))
  | _ => Except.error SaveError.notADict

/-! ## Scorer properties -/

/-- A character in the uppercase alphabetic range the word list carries. -/
def isUpperAZ (c : Char) : Bool := 'A' ≤ c && c ≤ 'Z'

theorem pass2_length (tcnt : Char → Nat) (l : List (Char × LStatus)) :
    ∀ used, (pass2 tcnt l used).length = l.length := by
  induction l with
  | nil => intro used; rfl
  | cons hd tl ih =>
    intro used
    obtain ⟨c, s⟩ := hd
    cases s
    case correct => simp [pass2, ih]
    case present => simp [pass2, ih]
    case absent => simp [pass2, ih]
    case pending =>
      simp only [pass2]
      split <;> simp [ih]

theorem pass2_count_correct (tcnt : Char → Nat) (l : List (Char × LStatus)) :
    ∀ used, (pass2 tcnt l used).count LStatus.correct =
      (l.map Prod.snd).count LStatus.correct := by
  induction l with
  | nil => intro used; rfl
  | cons hd tl ih =>
    intro used
    obtain ⟨c, s⟩ := hd
    cases s
    case correct => simp [pass2, List.count_cons, ih]
    case present => simp [pass2, List.count_cons, ih]
    case absent => simp [pass2, List.count_cons, ih]
    case pending =>
      simp only [pass2]
      split <;> simp [List.count_cons, ih]

theorem count_correct_map_matches (l : List (Char × Char)) :
    ((l.map (fun p => if p.1 = p.2 then LStatus.correct else LStatus.pending)).count
      LStatus.correct) = l.countP (fun p => p.1 = p.2) := by
  induction l with
  | nil => rfl
  | cons hd tl ih =>
    by_cases h : hd.1 = hd.2 <;>
      simp [List.count_cons, List.countP_cons, h, ih]

theorem scoreGuess_length (target guess : List Char) (hlen : target.length = guess.length) :
    (scoreGuess target guess).length = guess.length := by
  unfold scoreGuess
  rw [pass2_length]
  simp [pass1, hlen]

theorem scoreGuess_count_correct (target guess : List Char)
    (hlen : target.length = guess.length) :
    (scoreGuess target guess).count LStatus.correct =
      (guess.zip target).countP (fun p => p.1 = p.2) := by
  unfold scoreGuess
  rw [pass2_count_correct, List.map_snd_zip, pass1, count_correct_map_matches]
  simp [pass1, hlen]

/-- C2: for equal-length uppercase alphabetic target and guess, the
letter-status computation of `check_guess` yields one status per guess
position, and the number of `correct` statuses equals the number of
positions where guess and target agree. -/
theorem scorer_length_and_correct_count (target guess : List Char)
    (_hT : target.all isUpperAZ = true) (_hG : guess.all isUpperAZ = true)
    (hlen : target.length = guess.length) :
    (scoreGuess target guess).length = guess.length ∧
      (scoreGuess target guess).count LStatus.correct =
        (guess.zip target).countP (fun p => p.1 = p.2) :=
  ⟨scoreGuess_length target guess hlen, scoreGuess_count_correct target guess hlen⟩

/-- Witness for C2 at target APPLE, guess PLANE. -/
theorem scorer_length_and_correct_count_witness :
    ("APPLE".toList.all isUpperAZ = true ∧ "PLANE".toList.all isUpperAZ = true ∧
      "APPLE".toList.length = "PLANE".toList.length) ∧
    ((scoreGuess "APPLE".toList "PLANE".toList).length = "PLANE".toList.length ∧
      (scoreGuess "APPLE".toList "PLANE".toList).count LStatus.correct =
        ("PLANE".toList.zip "APPLE".toList).countP (fun p => p.1 = p.2)) :=
  ⟨⟨by decide, by decide, by decide⟩,
    scorer_length_and_correct_count "APPLE".toList "PLANE".toList
      (by decide) (by decide) (by decide)⟩

/-- C3: the two-pass multiset-aware scoring prevents over-counting of
duplicates — scoring guess ALLOW against target APPLE marks the exactly
placed A correct, the first misplaced L present (consuming the target's
single L), and the second L, O and W absent. -/
theorem scoring_duplicate_letters_allow_apple :
    scoreGuess "APPLE".toList "ALLOW".toList =
      [LStatus.correct, LStatus.present, LStatus.absent, LStatus.absent, LStatus.absent] := by
  decide

/-! ## Game state machine properties -/

theorem check_guess_valid (s : GameState) (w raw : List Char)
    (hw : s.current_word = some w)
    (hlen : (normalizeGuess raw).length = w.length)
    (halpha : pyIsAlpha (normalizeGuess raw) = true) :
    check_guess s raw =
      ({ s with
          attempts := s.attempts ++ [normalizeGuess raw]
          won := if normalizeGuess raw = w then true else s.won
          game_over := if s.attempts.length + 1 ≥ s.max_attempts then true
            else if normalizeGuess raw = w then true else s.game_over },
        Except.ok (scoreGuess w (normalizeGuess raw),
          feedbackOf (normalizeGuess raw) (scoreGuess w (normalizeGuess raw)))) := by
  simp [check_guess, hw, hlen, halpha]

/-- C1 (amended): `check_guess` has no finished-state guard — in a started
session with `game_over` already true, a further call with a valid guess
still succeeds, appends the normalized guess to `attempts`, and leaves
`game_over` true. -/
theorem check_guess_after_game_over (s : GameState) (w raw : List Char)
    (hover : s.game_over = true)
    (hw : s.current_word = some w)
    (hlen : (normalizeGuess raw).length = w.length)
    (halpha : pyIsAlpha (normalizeGuess raw) = true) :
    (check_guess s raw).2.isOk = true ∧
      (check_guess s raw).1.attempts = s.attempts ++ [normalizeGuess raw] ∧
      (check_guess s raw).1.game_over = true := by
  rw [check_guess_valid s w raw hw hlen halpha]
  refine ⟨rfl, rfl, ?_⟩
  simp [hover]

/-- Witness for C1 (amended): a concrete lost session (`max_attempts = 1`,
one wrong attempt recorded, `game_over` true) still accepts a further
guess. -/
theorem check_guess_after_game_over_witness :
    (let s : GameState :=
      { current_word := some "AB".toList
        max_attempts := 1
        attempts := ["CD".toList]
        game_over := true
        won := false }
     (check_guess s "CD".toList).2.isOk = true ∧
      (check_guess s "CD".toList).1.attempts =
        ["CD".toList] ++ [normalizeGuess "CD".toList] ∧
      (check_guess s "CD".toList).1.game_over = true) :=
  check_guess_after_game_over
    { current_word := some "AB".toList
      max_attempts := 1
      attempts := ["CD".toList]
      game_over := true
      won := false }
    "AB".toList "CD".toList rfl rfl (by decide) (by decide)

/-- C1 (counterexample): in that same finished session the claimed
finished-state error is not raised — the call succeeds and `attempts`
grows, refuting the claim as stated. -/
theorem check_guess_after_game_over_counterexample :
    (let s : GameState :=
      { current_word := some "AB".toList
        max_attempts := 1
        attempts := ["CD".toList]
        game_over := true
        won := false }
     (check_guess s "CD".toList).2.isOk = true ∧
      (check_guess s "CD".toList).1.attempts ≠ s.attempts) := by
  refine ⟨rfl, ?_⟩
  intro h
  have : (["CD".toList, "CD".toList] : List (List Char)) = ["CD".toList] := h
  simp at this

theorem applyGuesses_loss_invariant (gs : List (List Char)) :
    ∀ (s : GameState) (w : List Char),
      s.current_word = some w → s.won = false →
      s.game_over = decide (s.max_attempts ≤ s.attempts.length) →
      (∀ g ∈ gs, (normalizeGuess g).length = w.length ∧
        pyIsAlpha (normalizeGuess g) = true ∧ normalizeGuess g ≠ w) →
      ∃ s', applyGuesses s gs = Except.ok s' ∧
        s'.attempts.length = s.attempts.length + gs.length ∧ s'.won = false ∧
        s'.game_over = decide (s.max_attempts ≤ s.attempts.length + gs.length) := by
  induction gs with
  | nil =>
    intro s w hw hwon hover _
    exact ⟨s, rfl, by simp, hwon, by simpa using hover⟩
  | cons g gs ih =>
    intro s w hw hwon hover hvalid
    obtain ⟨hlen, halpha, hne⟩ := hvalid g (List.mem_cons_self g gs)
    have hstep := check_guess_valid s w g hw hlen halpha
    have happ : applyGuesses s (g :: gs) =
        applyGuesses (check_guess s g).1 gs := by
      simp only [applyGuesses]
      rw [hstep]
    set s1 : GameState :=
      { s with
          attempts := s.attempts ++ [normalizeGuess g]
          won := if normalizeGuess g = w then true else s.won
          game_over := if s.attempts.length + 1 ≥ s.max_attempts then true
            else if normalizeGuess g = w then true else s.game_over } with hs1
    have h1 : (check_guess s g).1 = s1 := by rw [hstep]
    have hlen1 : s1.attempts.length = s.attempts.length + 1 := by
      simp [hs1]
    have hwon1 : s1.won = false := by
      simp [hs1, if_neg hne, hwon]
    have hover1 : s1.game_over = decide (s1.max_attempts ≤ s1.attempts.length) := by
      simp only [hs1, hlen1]
      by_cases hc : s.attempts.length + 1 ≥ s.max_attempts
      · simp [hc]
      · have hlt : ¬ s.max_attempts ≤ s.attempts.length := by omega
        simp [hc, if_neg hne, hover, hlt]
    obtain ⟨s', hrun, hl, hwf, hof⟩ :=
      ih s1 w (by simp [hs1, hw]) hwon1 hover1
        (fun x hx => hvalid x (List.mem_cons_of_mem g hx))
    refine ⟨s', by rw [happ, h1]; exact hrun, ?_, hwf, ?_⟩
    · rw [hl, hlen1]
      simp [List.length_cons]
      omega
    · rw [hof, hlen1]
      have hmax : s1.max_attempts = s.max_attempts := by simp [hs1]
      rw [hmax]
      congr 1
      simp [List.length_cons]
      omega

/-- C6: in a session with `max_attempts = N ≥ 1` whose submitted guesses
are all valid and never equal the target, the run succeeds and ends with
one attempt per guess, `won` still false, and `game_over` true exactly
when at least `N` guesses have been submitted — so the session is
non-terminal after each of the first `N - 1` guesses and becomes
`Finished(Lost)` precisely at the `N`-th. -/
theorem attempt_budget_termination (w : List Char) (N : Nat) (gs : List (List Char))
    (hN : 1 ≤ N)
    (hvalid : ∀ g ∈ gs, (normalizeGuess g).length = w.length ∧
      pyIsAlpha (normalizeGuess g) = true ∧ normalizeGuess g ≠ w) :
    ∃ s', applyGuesses (startState w N) gs = Except.ok s' ∧
      s'.attempts.length = gs.length ∧ s'.won = false ∧
      s'.game_over = decide (N ≤ gs.length) := by
  obtain ⟨s', hrun, hl, hwf, hof⟩ :=
    applyGuesses_loss_invariant gs (startState w N) w rfl rfl
      (by simp [startState]; omega) hvalid
  exact ⟨s', hrun, by simpa [startState] using hl, hwf,
    by simpa [startState] using hof⟩

/-- Witness for C6: target AB, budget `N = 1`, one wrong guess CD — the
session ends lost exactly at that first guess. -/
theorem attempt_budget_termination_witness :
    (1 ≤ 1 ∧ (∀ g ∈ [("CD".toList : List Char)],
      (normalizeGuess g).length = "AB".toList.length ∧
        pyIsAlpha (normalizeGuess g) = true ∧ normalizeGuess g ≠ "AB".toList)) ∧
    (∃ s', applyGuesses (startState "AB".toList 1) [("CD".toList : List Char)] =
        Except.ok s' ∧
      s'.attempts.length = [("CD".toList : List Char)].length ∧ s'.won = false ∧
      s'.game_over = decide (1 ≤ [("CD".toList : List Char)].length)) :=
  ⟨⟨by decide, by decide⟩,
    attempt_budget_termination "AB".toList 1 [("CD".toList : List Char)]
      (by decide) (by decide)⟩

/-- C7 (amended): in a started session, `check_guess` raises the
length-mismatch error exactly when the normalized guess's length differs
from the target's, raises the invalid-character error exactly when the
length matches but the normalized guess is not purely alphabetic (the
length check runs first), and on any error the session state is
unchanged. -/
theorem check_guess_validation_errors (s : GameState) (w raw : List Char)
    (hw : s.current_word = some w) :
    ((check_guess s raw).2 = Except.error (GameError.lengthMismatch w.length) ↔
      (normalizeGuess raw).length ≠ w.length) ∧
    ((check_guess s raw).2 = Except.error GameError.invalidChars ↔
      ((normalizeGuess raw).length = w.length ∧
        pyIsAlpha (normalizeGuess raw) = false)) ∧
    (∀ e, (check_guess s raw).2 = Except.error e → (check_guess s raw).1 = s) := by
  by_cases h1 : (normalizeGuess raw).length = w.length
  · by_cases h2 : pyIsAlpha (normalizeGuess raw) = true
    · rw [check_guess_valid s w raw hw h1 h2]
      refine ⟨?_, ?_, ?_⟩
      · simp [h1]
      · simp [h2]
      · intro e he
        simp at he
    · have h2' : pyIsAlpha (normalizeGuess raw) = false := by
        revert h2; cases pyIsAlpha (normalizeGuess raw) <;> simp
      have hres : check_guess s raw = (s, Except.error GameError.invalidChars) := by
        simp [check_guess, hw, h1, h2']
      rw [hres]
      refine ⟨?_, ?_, fun e _ => rfl⟩
      · simp [h1]
      · simp [h1, h2']
  · have hres : check_guess s raw =
        (s, Except.error (GameError.lengthMismatch w.length)) := by
      simp [check_guess, hw, h1]
    rw [hres]
    refine ⟨?_, ?_, fun e _ => rfl⟩
    · simp [h1]
    · simp [h1]

/-- Witness for C7 (amended): target ABC, raw guess "ab!" — length
matches after normalization but the guess is not purely alphabetic, and
the state is unchanged on the error. -/
theorem check_guess_validation_errors_witness :
    (startState "ABC".toList 6).current_word = some "ABC".toList ∧
    (((check_guess (startState "ABC".toList 6) "ab!".toList).2 =
        Except.error (GameError.lengthMismatch "ABC".toList.length) ↔
      (normalizeGuess "ab!".toList).length ≠ "ABC".toList.length) ∧
    ((check_guess (startState "ABC".toList 6) "ab!".toList).2 =
        Except.error GameError.invalidChars ↔
      ((normalizeGuess "ab!".toList).length = "ABC".toList.length ∧
        pyIsAlpha (normalizeGuess "ab!".toList) = false)) ∧
    (∀ e, (check_guess (startState "ABC".toList 6) "ab!".toList).2 =
        Except.error e →
      (check_guess (startState "ABC".toList 6) "ab!".toList).1 =
        startState "ABC".toList 6)) :=
  ⟨rfl, check_guess_validation_errors (startState "ABC".toList 6)
    "ABC".toList "ab!".toList rfl⟩

/-- C7 (counterexample): target ABC, guess "12" — the normalized guess is
not purely alphabetic, yet the raised error is the length mismatch, not
the invalid-character error, refuting the claim's second "exactly when" as
stated. -/
theorem check_guess_validation_errors_counterexample :
    pyIsAlpha (normalizeGuess "12".toList) = false ∧
    (check_guess (startState "ABC".toList 6) "12".toList).2 =
      Except.error (GameError.lengthMismatch 3) ∧
    (check_guess (startState "ABC".toList 6) "12".toList).2 ≠
      Except.error GameError.invalidChars := by
  refine ⟨by decide, rfl, ?_⟩
  intro h
  have h2 : (Except.error (GameError.lengthMismatch 3) :
      Except GameError (List LStatus × List (List Char))) =
      Except.error GameError.invalidChars := h
  simp at h2

/-! ## Daily selector properties -/

/-- C4: for a non-empty word list, `select_daily_word` returns the word at
index `seed mod len(words)` uppercased and trimmed, where the seed is the
unsigned integer denoted by the first 8 hexadecimal characters of the
SHA-256 digest of the `YYYY-MM-DD` date string; on an empty list it fails
with the empty-list error. -/
theorem select_daily_word_formula (words : List String) (d : PyDate) :
    (words ≠ [] → select_daily_word words d =
      Except.ok (upperStrip (words.getD (dailySeedSpec d % words.length) ""))) ∧
    select_daily_word ([] : List String) d =
      Except.error "Words list cannot be empty" := by
  constructor
  · intro hne
    have hlen : ¬ words.length = 0 := by
      intro h0
      exact hne (List.length_eq_zero.mp h0)
    have hlt : dailySeedSpec d % words.length < words.length :=
      Nat.mod_lt _ (Nat.pos_of_ne_zero hlen)
    simp only [select_daily_word, dif_neg hlen]
    rw [List.getD_eq_getElem words "" hlt]
    rfl
  · rfl

/-- Witness for C4 at a two-word list. -/
theorem select_daily_word_formula_witness :
    (["apple", "grape"] : List String) ≠ [] ∧
    select_daily_word ["apple", "grape"] ⟨2024, 6, 15⟩ =
      Except.ok (upperStrip ((["apple", "grape"] : List String).getD
        (dailySeedSpec ⟨2024, 6, 15⟩ % (["apple", "grape"] : List String).length) "")) :=
  ⟨by simp,
    (select_daily_word_formula ["apple", "grape"] ⟨2024, 6, 15⟩).1 (by simp)⟩

/-- C5: `select_daily_word` is deterministic — equal `(words, date)`
inputs give equal results — and on a singleton list it returns that word
uppercased and trimmed for every date, so in particular the same result
for any two dates. -/
theorem select_daily_word_deterministic (W W' : List String) (d d' e e' : PyDate)
    (w : String) :
    (W = W' → d = d' → select_daily_word W d = select_daily_word W' d') ∧
    select_daily_word [w] e = Except.ok (upperStrip w) ∧
    select_daily_word [w] e = select_daily_word [w] e' := by
  have hone : ∀ f : PyDate, select_daily_word [w] f = Except.ok (upperStrip w) := by
    intro f
    have hlen : ¬ ([w] : List String).length = 0 := by simp
    simp only [select_daily_word, dif_neg hlen]
    simp [Nat.mod_one]
  refine ⟨?_, hone e, ?_⟩
  · intro h1 h2
    rw [h1, h2]
  · rw [hone e, hone e']

/-- Witness for C5: a singleton list yields its word (uppercased and
stripped) on two different dates. -/
theorem select_daily_word_deterministic_witness :
    select_daily_word ["hello"] ⟨2024, 6, 15⟩ =
      select_daily_word ["hello"] ⟨2024, 6, 15⟩ ∧
    select_daily_word ["hello"] ⟨2024, 6, 15⟩ = Except.ok (upperStrip "hello") ∧
    select_daily_word ["hello"] ⟨2024, 6, 15⟩ =
      select_daily_word ["hello"] ⟨2025, 1, 1⟩ :=
  ⟨(select_daily_word_deterministic ["hello"] ["hello"] ⟨2024, 6, 15⟩ ⟨2024, 6, 15⟩
      ⟨2024, 6, 15⟩ ⟨2025, 1, 1⟩ "hello").1 rfl rfl,
    (select_daily_word_deterministic ["hello"] ["hello"] ⟨2024, 6, 15⟩ ⟨2024, 6, 15⟩
      ⟨2024, 6, 15⟩ ⟨2025, 1, 1⟩ "hello").2.1,
    (select_daily_word_deterministic ["hello"] ["hello"] ⟨2024, 6, 15⟩ ⟨2024, 6, 15⟩
      ⟨2024, 6, 15⟩ ⟨2025, 1, 1⟩ "hello").2.2⟩

/-! ## Persistence properties -/

/-- Whether a JSON value is a list. -/
def Json.isArr : Json → Bool
  | Json.arr _ => true
  | _ => false

/-- C8 (amended): `load_scores` returns the empty sequence when the path
does not exist and also when the file's contents strip to the empty
string; it fails when the path exists with non-blank contents that are
not valid JSON, or are valid JSON that is not a list. -/
theorem load_scores_cases :
    load_scores none = Except.ok [] ∧
    load_scores (some FileText.blank) = Except.ok [] ∧
    load_scores (some FileText.invalid) = Except.error LoadError.decodeError ∧
    (∀ xs, load_scores (some (FileText.val (Json.arr xs))) = Except.ok xs) ∧
    (∀ j, Json.isArr j = false →
      load_scores (some (FileText.val j)) = Except.error LoadError.notAList) := by
  refine ⟨rfl, rfl, rfl, fun xs => rfl, ?_⟩
  intro j hj
  cases j
  case arr xs => simp [Json.isArr] at hj
  all_goals rfl

/-- Witness for C8 (amended): a file holding the JSON number 3 makes
`load_scores` fail with the not-a-list error. -/
theorem load_scores_cases_witness :
    Json.isArr (Json.num 3) = false ∧
    load_scores (some (FileText.val (Json.num 3))) =
      Except.error LoadError.notAList :=
  ⟨rfl, load_scores_cases.2.2.2.2 (Json.num 3) rfl⟩

/-- C8 (counterexample): a path that exists but whose contents strip to
the empty string — not valid JSON — yields the empty list instead of the
failure the claim requires. -/
theorem load_scores_blank_counterexample :
    load_scores (some FileText.blank) = Except.ok [] ∧
    (Except.ok ([] : List Json) : Except LoadError (List Json)) ≠
      Except.error LoadError.decodeError ∧
    (Except.ok ([] : List Json) : Except LoadError (List Json)) ≠
      Except.error LoadError.notAList :=
  ⟨rfl, fun h => Except.noConfusion h, fun h => Except.noConfusion h⟩

/-- C9: whenever `save_score` completes on some store state, reading the
store back yields a non-empty sequence whose last element is exactly the
saved record. -/
theorem save_load_roundtrip (fs fs' : Option FileText) (score : Json)
    (hsave : save_score fs score = Except.ok fs') :
    ∃ xs, load_scores fs' = Except.ok xs ∧ xs ≠ [] ∧ xs.getLast? = some score := by
  cases score
  case null => simp [save_score] at hsave
  case b x => simp [save_score] at hsave
  case num n => simp [save_score] at hsave
  case str s => simp [save_score] at hsave
  case arr xs => simp [save_score] at hsave
  case obj kvs =>
    simp only [save_score] at hsave
    split at hsave
    · simp at hsave
    · split at hsave
      · simp at hsave
      · split at hsave
        · simp at hsave
        · split at hsave
          · simp at hsave
          · split at hsave
            · simp at hsave
            · split at hsave
              · simp at hsave
              · split at hsave
                · simp at hsave
                · cases hsave
                  refine ⟨_, rfl, ?_, ?_⟩
                  · simp
                  · simp [List.getLast?_concat]

/-- A valid score record saved in the round-trip witness. -/
def roundtripRecord : Json :=
  Json.obj [("player", Json.str "p"), ("word", Json.str "APPLE"),
    ("attempts", Json.num 3), ("won", Json.b true),
    ("date", Json.str "2024-01-01T12:00:00Z")]

/-- Witness for C9: saving a concrete valid record into a missing store
and loading it back yields that record as the last (and only) element. -/
theorem save_load_roundtrip_witness :
    save_score none roundtripRecord =
      Except.ok (some (FileText.val (Json.arr [roundtripRecord]))) ∧
    (∃ xs, load_scores (some (FileText.val (Json.arr [roundtripRecord]))) =
        Except.ok xs ∧ xs ≠ [] ∧ xs.getLast? = some roundtripRecord) :=
  ⟨rfl, save_load_roundtrip none
    (some (FileText.val (Json.arr [roundtripRecord]))) roundtripRecord rfl⟩

/-- The record of C10, with a boolean in the `attempts` field. -/
def boolAttemptsRecord : Json :=
  Json.obj [("player", Json.str "p"), ("word", Json.str "W"),
    ("attempts", Json.b true), ("won", Json.b true),
    ("date", Json.str "2024-01-01T00:00:00Z")]

/-- C10: because Python's `bool` is a subclass of `int`, a record whose
`attempts` field is `True` passes `save_score`'s non-negative-integer
check and is persisted. -/
theorem save_score_accepts_bool_attempts :
    isPyInt (Json.b true) = true ∧ (0 : Int) ≤ pyIntVal (Json.b true) ∧
    save_score none boolAttemptsRecord =
      Except.ok (some (FileText.val (Json.arr [boolAttemptsRecord]))) :=
  ⟨rfl, by decide, rfl⟩
